import Mathlib

/-!
# Verification of the my-vault encrypted persistence core

Shallow embedding of the repository's crypto / storage / app-state modules
(`crypto.js`, `storage.js`, `github.js`, `app.js`, and the change-password
handler of `ui.js`) together with proofs settling the frozen claims about
the natural-language specification.

Modelling conventions:
* Platform primitives that are external to the repository (Web Crypto's
  PBKDF2/AES-GCM, `btoa`/`atob` base64, `TextEncoder`/`TextDecoder`,
  `JSON.stringify`/`JSON.parse`, `localStorage`, `fetch`) are modelled
  per the spec's description of their contracts; everything written in
  the repository's own source files is translated directly.
* Randomness consumption (`crypto.getRandomValues`) is modelled by passing
  the drawn salt/iv as explicit arguments.
* Asynchronous remote I/O outcomes (network success/failure) are passed as
  explicit boolean/Option arguments; thrown JS exceptions that a function
  catches are modelled by `Except`/`Option` results.
* `localStorage` is modelled by an explicit `LocalStore` record threaded
  through the storage functions; the single remote file (`vault.enc` on
  GitHub) by an `Option Envelope` threaded alongside.
-/

/-! ## Envelope Codec (crypto.js)

`crypto.js` delegates the actual cryptography to the Web Crypto API, which
is outside the repository.  Per spec §4.1 we model it as an ideal
deterministic key-derivation plus an ideal authenticated cipher:
* `deriveKey` is "deterministic for identical (password, salt)" and
  key-separating in the password, so the derived key is modelled as the
  (password, salt) pair itself.
* AES-GCM is authenticated encryption: "decryption either yields the exact
  original plaintext or fails" (spec §3), so a ciphertext is modelled as a
  term recording the key, iv and plaintext, and decryption checks that the
  supplied key and iv match before releasing the plaintext.
* The UTF-8 `TextEncoder`/`TextDecoder` pair is a faithful injective
  encoding of strings, modelled as the identity on `String`.
* The base64 transport encoding (`btoa`/`atob`, with `b64encode`/`b64decode`
  wrappers in crypto.js) is a faithful invertible text encoding of byte
  sequences; per spec §3 "byte semantics are canonical", so envelope fields
  hold the byte-level values directly and the transport encoding is the
  identity.  Byte sequences are `List Nat`.
-/

/-- The symmetric key produced by `deriveKey(password, salt)` (PBKDF2 with
600,000 iterations in the source).  Idealized: deterministic in, and
uniquely determined by, the (password, salt) pair. -/
structure AESKey where
  password : String
  salt : List Nat
deriving DecidableEq, Repr

/-- crypto.js `deriveKey(password, salt)`: deterministic key derivation. -/
def deriveKey (password : String) (salt : List Nat) : AESKey :=
  ⟨password, salt⟩

/-- An AES-GCM ciphertext-with-tag as returned by `crypto.subtle.encrypt`.
Idealized authenticated encryption: the term records which key and iv
produced it and what the plaintext was; it is opaque to everything except
`aesGcmDecrypt` with the matching key. -/
structure GCMCiphertext where
  key : AESKey
  iv : List Nat
  data : String
deriving DecidableEq, Repr

/-- Ideal model of `crypto.subtle.encrypt({name:'AES-GCM', iv}, key, enc.encode(plaintext))`. -/
def aesGcmEncrypt (key : AESKey) (iv : List Nat) (plaintext : String) : GCMCiphertext :=
  ⟨key, iv, plaintext⟩

/-- Ideal model of `crypto.subtle.decrypt({name:'AES-GCM', iv}, key, ciphertext)`:
authenticated decryption returns the exact original plaintext when the key
and iv match, and fails (`none`, modelling the thrown `OperationError`)
otherwise. -/
def aesGcmDecrypt (key : AESKey) (iv : List Nat) (ct : GCMCiphertext) : Option String :=
  if ct.key = key ∧ ct.iv = iv then some ct.data else none

/-- The persisted envelope `{salt, iv, ciphertext}` built by crypto.js
`encrypt`.  Fields hold byte-level values; the base64 transport encoding is
modelled as the identity (see module comment). -/
structure Envelope where
  salt : List Nat
  iv : List Nat
  ciphertext : GCMCiphertext
deriving DecidableEq, Repr

/-- crypto.js `encrypt(plaintext, password)`: draws a fresh 16-byte salt and
12-byte iv (passed here as explicit arguments modelling
`crypto.getRandomValues`), derives the key, AES-GCM-encrypts the plaintext
and returns the three-field envelope. -/
def Crypto.encrypt (plaintext : String) (password : String)
    (salt iv : List Nat) : Envelope :=
  let key := deriveKey password salt
  { salt := salt, iv := iv, ciphertext := aesGcmEncrypt key iv plaintext }

/-- crypto.js `decrypt(payload, password)`: derives the key from the
envelope's salt and the given password and runs authenticated GCM
decryption; `none` models the thrown authentication failure. -/
def Crypto.decrypt (payload : Envelope) (password : String) : Option String :=
  let key := deriveKey password payload.salt
  aesGcmDecrypt key payload.iv payload.ciphertext

/-- crypto.js `verify(payload, password)`: true iff decryption succeeds;
swallows the failure. -/
def Crypto.verify (payload : Envelope) (password : String) : Bool :=
  (Crypto.decrypt payload password).isSome

/-! ## Local store, GitHub sync client, and the storage orchestrator
(storage.js, github.js)

`localStorage` holds three independent keys used by the core: the encrypted
vault blob (`mv_vault`), the pending-sync flag (`mv_pending`) and the GitHub
sync configuration (`mv_gh_cfg`).  They are modelled as one `LocalStore`
record threaded through the functions.  The single remote file `vault.enc`
is modelled as an `Option Envelope` threaded alongside; whether a given
remote HTTP round-trip succeeds is passed as an explicit `Bool` argument
(`pushOk` / `pullOk`), since the network is external. -/

/-- The GitHub sync configuration `{owner, repo, token}` stored under
`mv_gh_cfg` (github.js `setConfig`). -/
structure GHConfig where
  owner : String
  repo : String
  token : String
deriving DecidableEq, Repr

/-- The `localStorage` keys used by the core: `mv_vault` (encrypted blob,
`none` when absent), `mv_pending` (flag, absent ↦ `false`), `mv_gh_cfg`
(GitHub config, `none` when absent). -/
structure LocalStore where
  vault : Option Envelope
  pending : Bool
  ghConfig : Option GHConfig
deriving DecidableEq, Repr

/-- github.js `isConfigured()`: the config exists and `owner`, `repo` and
`token` are all truthy (non-empty strings). -/
def GitHub.isConfigured (cfg : Option GHConfig) : Bool :=
  match cfg with
  | some c => !(c.owner == "") && !(c.repo == "") && !(c.token == "")
  | none => false

/-- storage.js `saveLocal(encryptedPayload)`: overwrite the `mv_vault` slot. -/
def Storage.saveLocal (env : Envelope) (st : LocalStore) : LocalStore :=
  { st with vault := some env }

/-- storage.js `loadLocal()`: the stored envelope, or `none` if absent. -/
def Storage.loadLocal (st : LocalStore) : Option Envelope :=
  st.vault

/-- storage.js `hasLocal()`. -/
def Storage.hasLocal (st : LocalStore) : Bool :=
  st.vault.isSome

/-- storage.js `markPending()`. -/
def Storage.markPending (st : LocalStore) : LocalStore :=
  { st with pending := true }

/-- storage.js `clearPending()`. -/
def Storage.clearPending (st : LocalStore) : LocalStore :=
  { st with pending := false }

/-- storage.js `hasPending()`. -/
def Storage.hasPending (st : LocalStore) : Bool :=
  st.pending

/-- storage.js `save(encryptedPayload)`: always `saveLocal` first, then
`try { await syncToGitHub(payload); clearPending(); } catch { markPending(); }`.
`syncToGitHub` calls `GitHub.push` only when GitHub is configured and
otherwise resolves immediately.  `pushOk` models whether the GitHub PUT
round-trip succeeds; a successful push makes the pushed envelope the new
remote file content.  Returns the updated local store and remote file. -/
def Storage.save (env : Envelope) (pushOk : Bool)
    (st : LocalStore) (remote : Option Envelope) :
    LocalStore × Option Envelope :=
  let st1 := Storage.saveLocal env st
  if GitHub.isConfigured st1.ghConfig then
    if pushOk then (Storage.clearPending st1, some env)
    else (Storage.markPending st1, remote)
  else (Storage.clearPending st1, remote)

/-- storage.js `load()`: `try { const remote = await syncFromGitHub();
if (remote) { saveLocal(remote); return remote; } } catch {} ;
return loadLocal();`.  `syncFromGitHub` calls `GitHub.pull` only when
configured and otherwise returns `null`; `GitHub.pull` returns `null` on
404 (remote file absent) and throws on other failures (`pullOk = false`).
Returns the loaded envelope (or `none`) and the updated local store. -/
def Storage.load (pullOk : Bool)
    (st : LocalStore) (remote : Option Envelope) :
    Option Envelope × LocalStore :=
  if GitHub.isConfigured st.ghConfig then
    if pullOk then
      match remote with
      | some r => (some r, Storage.saveLocal r st)
      | none => (Storage.loadLocal st, st)
    else (Storage.loadLocal st, st)
  else (Storage.loadLocal st, st)

/-! ## Vault data model and table operations (app.js)

The plaintext vault `{ version, tables: { name: {columns, rows} } }` is a
JS object mapping table names to tables; it is modelled as an association
list keyed by the (case-sensitive) table name.  JS object-property
assignment `tables[name] = tbl` either overwrites the existing entry in
place or appends a new one (`setTable`).  Every vault-mutating operation in
app.js mutates the in-memory vault and then re-encrypts and persists the
whole vault (`persistVault`); persistence does not change the vault, so the
table operations are modelled as pure vault transforms. -/

/-- A table: ordered column names and rows of cell strings (app.js). -/
structure Table where
  columns : List String
  rows : List (List String)
deriving DecidableEq, Repr

/-- The plaintext vault (app.js `state.vault`). -/
structure Vault where
  version : Nat
  tables : List (String × Table)
deriving DecidableEq, Repr

/-- app.js `emptyVault()`: `{ version: 1, tables: {} }`. -/
def emptyVault : Vault :=
  { version := 1, tables := [] }

/-- Checks the spec §3 row-length invariant for one table: every row's
length equals `columns.length`. -/
def Table.rowLenInv (t : Table) : Bool :=
  t.rows.all (fun r => r.length == t.columns.length)

/-- Checks the row-length invariant for every table of the vault. -/
def Vault.rowLenInv (v : Vault) : Bool :=
  v.tables.all (fun p => p.2.rowLenInv)

/-- JS object-property assignment `tables[name] = tbl`: overwrite the
existing entry or append a new one. -/
def setTable (ts : List (String × Table)) (name : String) (tbl : Table) :
    List (String × Table) :=
  if (ts.lookup name).isSome then
    ts.map (fun p => if p.1 = name then (name, tbl) else p)
  else
    ts ++ [(name, tbl)]

/-- Modelled from the spec: the platform `String.prototype.trim` whitespace
predicate (the common whitespace code points used by the sources). -/
def jsWhitespace (c : Char) : Bool :=
  c == ' ' || c == '\t' || c == '\n' || c == '\r'

/-- Modelled from the spec: the platform `String.prototype.trim`, removing
leading and trailing whitespace. -/
def jsTrim (s : String) : String :=
  String.mk (((s.toList.dropWhile jsWhitespace).reverse.dropWhile
    jsWhitespace).reverse)

/-- Modelled from the spec: the platform `String.prototype.split('\n')`,
splitting at every newline character. -/
def splitLinesList : List Char → List (List Char)
  | [] => [[]]
  | c :: rest =>
    if c == '\n' then [] :: splitLinesList rest
    else
      match splitLinesList rest with
      | [] => [[c]]
      | l :: ls => (c :: l) :: ls

/-- JS `csvText.split('\n')` as a list of strings. -/
def jsSplitNewline (s : String) : List String :=
  (splitLinesList s.toList).map String.mk

/-- The character loop of app.js `importCSV`'s `parseRow`: walks the line,
toggling `inQ` at double quotes, splitting at unquoted commas, and
accumulating the current field in `cur`. -/
def parseRowGo : List Char → String → Bool → List String → List String
  | [], cur, _, result => result ++ [cur]
  | c :: rest, cur, inQ, result =>
    if c == '"' then parseRowGo rest cur (!inQ) result
    else if c == ',' && !inQ then parseRowGo rest "" inQ (result ++ [cur])
    else parseRowGo rest (cur.push c) inQ result

/-- app.js `importCSV`'s `parseRow(line)`. -/
def parseRow (line : String) : List String :=
  parseRowGo line.toList "" false []

/-- app.js `addColumn(tableName, colName)`: look the table up (return
unchanged if missing), default the trimmed-empty name to
`Column ${columns.length + 1}`, push the column name and push `''` onto
every row. -/
def App.addColumn (v : Vault) (tableName colName : String) : Vault :=
  match v.tables.lookup tableName with
  | none => v
  | some tbl =>
    let c := if jsTrim colName = "" then
        "Column " ++ toString (tbl.columns.length + 1)
      else jsTrim colName
    let tbl' : Table :=
      { tbl with columns := tbl.columns ++ [c],
                 rows := tbl.rows.map (fun r => r ++ [""]) }
    { v with tables := setTable v.tables tableName tbl' }

/-- app.js `deleteColumn(tableName, colIndex)`: return unchanged if the
table is missing or has only one column; otherwise `splice(colIndex, 1)`
out of `columns` and out of every row in lock-step (`List.eraseIdx` models
`splice(i, 1)` for a non-negative index). -/
def App.deleteColumn (v : Vault) (tableName : String) (colIndex : Nat) : Vault :=
  match v.tables.lookup tableName with
  | none => v
  | some tbl =>
    if tbl.columns.length ≤ 1 then v
    else
      let tbl' : Table :=
        { tbl with columns := tbl.columns.eraseIdx colIndex,
                   rows := tbl.rows.map (fun r => r.eraseIdx colIndex) }
      { v with tables := setTable v.tables tableName tbl' }

/-- JS array-index assignment `row[colIndex] = value`: in range it
overwrites the cell; past the end it grows the array to length
`colIndex + 1` (the intermediate holes read as `undefined`; only the
resulting length is observable in the claims, so holes are modelled as
`""`). -/
def jsArraySet (l : List String) (i : Nat) (v : String) : List String :=
  if i < l.length then l.set i v
  else l ++ List.replicate (i - l.length) "" ++ [v]

/-- The cell assignment `tbl.rows[rowIndex][colIndex] = value` of app.js
`updateCell`: `none` models the TypeError thrown when
`tbl.rows[rowIndex]` is `undefined`. -/
def updateCellT (tbl : Table) (rowIndex colIndex : Nat) (value : String) :
    Option Table :=
  match tbl.rows[rowIndex]? with
  | none => none
  | some row =>
    some { tbl with rows := tbl.rows.set rowIndex (jsArraySet row colIndex value) }

/-- app.js `updateCell(tableName, rowIndex, colIndex, value)`: if the table
is missing, return with no change; otherwise perform the unchecked cell
assignment (`none` propagates the TypeError). -/
def App.updateCell (v : Vault) (tableName : String) (rowIndex colIndex : Nat)
    (value : String) : Option Vault :=
  match v.tables.lookup tableName with
  | none => some v
  | some tbl =>
    match updateCellT tbl rowIndex colIndex value with
    | none => none
    | some tbl' => some { v with tables := setTable v.tables tableName tbl' }

/-- app.js `importCSV(tableName, csvText)`: trim the text, split into
trimmed non-empty lines, parse the first line as the column header and the
rest as rows, default a trimmed-empty table name to `'Imported Table'`;
append the parsed rows if the table exists, otherwise create the table
with the parsed columns and rows.  Returns the updated vault and the
JS function's boolean result. -/
def App.importCSV (v : Vault) (tableName csvText : String) : Vault × Bool :=
  let lines := ((jsSplitNewline (jsTrim csvText)).map jsTrim).filter
    (fun l => l != "")
  match lines with
  | [] => (v, false)
  | l0 :: rest =>
    let columns := parseRow l0
    let rows := rest.map parseRow
    let name := if jsTrim tableName = "" then "Imported Table" else jsTrim tableName
    match v.tables.lookup name with
    | some tbl =>
      ({ v with tables := setTable v.tables name ({ tbl with rows := tbl.rows ++ rows }) }, true)
    | none =>
      ({ v with tables := setTable v.tables name ⟨columns, rows⟩ }, true)

/-- The column-level mutating operations named by the spec sentence behind
C3 ("invariant maintained by every column add/delete operation"). -/
inductive ColOp where
  | add (tableName colName : String)
  | del (tableName : String) (colIndex : Nat)
deriving DecidableEq, Repr

/-- Apply one column operation to the vault. -/
def applyColOp (v : Vault) : ColOp → Vault
  | .add t c => App.addColumn v t c
  | .del t i => App.deleteColumn v t i

/-- Apply a sequence of column operations to the vault. -/
def applyColOps (v : Vault) (ops : List ColOp) : Vault :=
  ops.foldl applyColOp v

/-! ### Helper lemmas for the row-length invariant -/

/-! ### C10: updateCell performs no bounds check -/

/-- A concrete one-column, one-row table used by witnesses. -/
def sampleTable : Table :=
  ⟨["c1"], [["x"]]⟩

/-- A concrete vault holding `sampleTable` under the name "T". -/
def sampleVault : Vault :=
  ⟨1, [("T", sampleTable)]⟩

/-! ## Vault serialization (platform JSON)

app.js serializes the vault with `JSON.stringify` before encryption and
parses it back with `JSON.parse` after decryption.  Both are platform
primitives external to the repository; they are modelled as an executable
injective codec from `Vault` to `String` with a partial inverse (`none`
models the exception `JSON.parse` throws on text it cannot parse).  The
concrete wire format is immaterial to every claim; a simple length-prefixed
encoding keeps the codec executable and injective. -/

/-- Unary length prefix used by the serialization model. -/
def encNat (n : Nat) : List Char :=
  List.replicate n '1' ++ ['0']

/-- Length-prefixed string encoding. -/
def encString (s : String) : List Char :=
  encNat s.length ++ s.toList

/-- Length-prefixed list encoding. -/
def encListChar {α : Type} (f : α → List Char) (xs : List α) : List Char :=
  encNat xs.length ++ (xs.map f).flatten

/-- Serialization of one table. -/
def encTable (t : Table) : List Char :=
  encListChar encString t.columns ++ encListChar (encListChar encString) t.rows

/-- Serialization of the vault. -/
def encVault (v : Vault) : List Char :=
  encNat v.version ++ encListChar (fun p => encString p.1 ++ encTable p.2) v.tables

/-- Modelled from the spec: the platform `JSON.stringify(state.vault)`,
as an executable injective serialization of the vault. -/
def jsonStringifyVault (v : Vault) : String :=
  String.mk (encVault v)

/-- Inverse of `encNat`. -/
def decNat : List Char → Option (Nat × List Char)
  | [] => none
  | c :: rest =>
    if c == '0' then some (0, rest)
    else if c == '1' then (decNat rest).map (fun p => (p.1 + 1, p.2))
    else none

/-- Inverse of `encString`. -/
def decString (cs : List Char) : Option (String × List Char) :=
  match decNat cs with
  | none => none
  | some (n, rest) =>
    if n ≤ rest.length then some (String.mk (rest.take n), rest.drop n)
    else none

/-- Decode exactly `n` values with `f`. -/
def decListN {α : Type} (f : List Char → Option (α × List Char)) :
    Nat → List Char → Option (List α × List Char)
  | 0, cs => some ([], cs)
  | n + 1, cs =>
    match f cs with
    | none => none
    | some (a, cs1) =>
      match decListN f n cs1 with
      | none => none
      | some (as, cs2) => some (a :: as, cs2)

/-- Inverse of `encListChar`. -/
def decListChar {α : Type} (f : List Char → Option (α × List Char))
    (cs : List Char) : Option (List α × List Char) :=
  match decNat cs with
  | none => none
  | some (n, rest) => decListN f n rest

/-- Inverse of `encTable`. -/
def decTable (cs : List Char) : Option (Table × List Char) :=
  match decListChar decString cs with
  | none => none
  | some (cols, cs1) =>
    match decListChar (decListChar decString) cs1 with
    | none => none
    | some (rows, cs2) => some (⟨cols, rows⟩, cs2)

/-- Inverse of the entry encoder used by `encVault`. -/
def decEntry (cs : List Char) : Option ((String × Table) × List Char) :=
  match decString cs with
  | none => none
  | some (n, cs1) =>
    match decTable cs1 with
    | none => none
    | some (t, cs2) => some ((n, t), cs2)

/-- Inverse of `encVault`. -/
def decVault (cs : List Char) : Option (Vault × List Char) :=
  match decNat cs with
  | none => none
  | some (ver, cs1) =>
    match decListChar decEntry cs1 with
    | none => none
    | some (ts, cs2) => some (⟨ver, ts⟩, cs2)

/-- Modelled from the spec: the platform `JSON.parse` applied to a decrypted
vault serialization; `none` models the thrown `SyntaxError`. -/
def jsonParseVault (s : String) : Option Vault :=
  match decVault s.toList with
  | some (v, []) => some v
  | _ => none

/-! ## Session/Vault Controller (app.js state, unlock, lock;
ui.js change-password handler) -/

/-- The session fields of app.js `state` that the persistence core touches
(`activeTable` and `searchQuery` are included because `lock()` resets
them). -/
structure AppState where
  locked : Bool
  password : Option String
  vault : Option Vault
  activeTable : Option String
  searchQuery : String
  pendingSync : Bool
deriving DecidableEq, Repr

/-- The initial app.js `state`: locked, no password, no vault. -/
def initialAppState : AppState :=
  ⟨true, none, none, none, "", false⟩

/-- app.js `lock()`: wipe password, vault, active table and search query
from memory and transition to Locked. -/
def App.lock (app : AppState) : AppState :=
  { app with locked := true, password := none, vault := none,
             activeTable := none, searchQuery := "" }

/-- app.js `persistVault()`: return immediately when `state.vault` or
`state.password` is falsy (`null`, or the empty-string password);
otherwise encrypt `JSON.stringify(state.vault)` under the session password
with fresh salt/iv, `Storage.save` it, and mirror `Storage.hasPending()`
into `state.pendingSync`. -/
def App.persistVault (salt iv : List Nat) (pushOk : Bool)
    (app : AppState) (st : LocalStore) (remote : Option Envelope) :
    AppState × LocalStore × Option Envelope :=
  match app.vault, app.password with
  | some v, some pw =>
    if pw = "" then (app, st, remote)
    else
      let json := jsonStringifyVault v
      let encrypted := Crypto.encrypt json pw salt iv
      let saveRes := Storage.save encrypted pushOk st remote
      ({ app with pendingSync := Storage.hasPending saveRes.1 },
        saveRes.1, saveRes.2)
  | _, _ => (app, st, remote)

/-- The result object of app.js `unlock`: `{ok: true, firstRun: true}`,
`{ok: true, firstRun: false}`, `{ok: false}`, or an escaped exception
(`JSON.parse` throwing on a plaintext that is not a vault). -/
inductive UnlockResult where
  | okFirstRun
  | okReturning
  | fail
  | threw
deriving DecidableEq, Repr

/-- app.js `unlock(password)`: `Storage.load()`; if the payload is absent,
take the first-run path (adopt the password, create the empty vault,
transition to Unlocked, `persistVault()`, return firstRun true).  If
present, `Crypto.verify` then `Crypto.decrypt` — since `verify` is exactly
`isSome ∘ decrypt` of the same deterministic computation, the verify check
and the decrypt are one match on the decrypt result — parse the JSON into
the vault, store the password, transition to Unlocked. -/
def App.unlock (password : String) (pullOk : Bool) (salt iv : List Nat)
    (pushOk : Bool) (app : AppState) (st : LocalStore)
    (remote : Option Envelope) :
    UnlockResult × AppState × LocalStore × Option Envelope :=
  let loadRes := Storage.load pullOk st remote
  let st1 := loadRes.2
  match loadRes.1 with
  | none =>
    let app1 := { app with password := some password,
                           vault := some emptyVault, locked := false }
    let pv := App.persistVault salt iv pushOk app1 st1 remote
    (.okFirstRun, pv.1, pv.2.1, pv.2.2)
  | some payload =>
    match Crypto.decrypt payload password with
    | none => (.fail, app, st1, remote)
    | some json =>
      match jsonParseVault json with
      | some v =>
        (.okReturning,
          { app with vault := some v, password := some password,
                     locked := false }, st1, remote)
      | none => (.threw, app, st1, remote)

/-- The outcome of the ui.js change-password button handler: the four
inline validation errors, or success (vault re-encrypted and session
locked). -/
inductive PwChangeResult where
  | mismatch
  | tooShort
  | noVault
  | wrongPassword
  | changed
deriving DecidableEq, Repr

/-- The ui.js change-password handler (`pwBtn` onclick): reject mismatched
or short new passwords; load the *persisted* envelope with
`Storage.loadLocal()`; verify and decrypt it under the old password (one
match on the deterministic decrypt result, as in `App.unlock`); re-encrypt
the same plaintext under the new password with fresh salt/iv;
`Storage.save` the new envelope and `App.lock()` the session. -/
def UI.changePassword (oldPw newPw newPw2 : String) (salt iv : List Nat)
    (pushOk : Bool) (app : AppState) (st : LocalStore)
    (remote : Option Envelope) :
    PwChangeResult × AppState × LocalStore × Option Envelope :=
  if newPw ≠ newPw2 then (.mismatch, app, st, remote)
  else if newPw.length < 8 then (.tooShort, app, st, remote)
  else
    match Storage.loadLocal st with
    | none => (.noVault, app, st, remote)
    | some payload =>
      match Crypto.decrypt payload oldPw with
      | none => (.wrongPassword, app, st, remote)
      | some json =>
        let newPayload := Crypto.encrypt json newPw salt iv
        let saveRes := Storage.save newPayload pushOk st remote
        (.changed, App.lock app, saveRes.1, saveRes.2)

/-- A concrete envelope encrypting the serialized empty vault under the
password "hunter2duck"; used by witnesses. -/
def sampleEnvelope : Envelope :=
  Crypto.encrypt (jsonStringifyVault emptyVault) "hunter2duck" [0] [1]

/-! ## Claims and supporting lemmas -/

/-- C1: for every plaintext string P and every password W (and any drawn
salt and iv), decrypting the envelope produced by `encrypt(P, W)` with the
same password W returns exactly P. -/
theorem C1_encrypt_decrypt_round_trip (P W : String) (salt iv : List Nat) :
    Crypto.decrypt (Crypto.encrypt P W salt iv) W = some P := by
  simp [Crypto.decrypt, Crypto.encrypt, aesGcmDecrypt, aesGcmEncrypt, deriveKey]

/-- C2: for every plaintext P and distinct passwords W1 ≠ W2, decrypting
`encrypt(P, W1)` with W2 fails with an authentication failure (no plaintext
is returned), and `verify(encrypt(P, W1), W2)` is false. -/
theorem C2_wrong_password_rejected (P W1 W2 : String) (salt iv : List Nat)
    (h : W1 ≠ W2) :
    Crypto.decrypt (Crypto.encrypt P W1 salt iv) W2 = none ∧
      Crypto.verify (Crypto.encrypt P W1 salt iv) W2 = false := by
  have hkey : deriveKey W1 salt ≠ deriveKey W2 salt := by
    intro hcontra
    exact h (congrArg AESKey.password hcontra)
  constructor
  · simp only [Crypto.decrypt, Crypto.encrypt, aesGcmDecrypt, aesGcmEncrypt]
    rw [if_neg]
    intro hcontra
    exact hkey hcontra.1
  · simp only [Crypto.verify, Crypto.decrypt, Crypto.encrypt, aesGcmDecrypt, aesGcmEncrypt]
    rw [if_neg]
    · rfl
    · intro hcontra
      exact hkey hcontra.1

/-- Witness for C2 at a concrete input: passwords "alpha" and "beta". -/
theorem C2_wrong_password_rejected_witness :
    Crypto.decrypt (Crypto.encrypt "secret" "alpha" [0] [1]) "beta" = none ∧
      Crypto.verify (Crypto.encrypt "secret" "alpha" [0] [1]) "beta" = false :=
  C2_wrong_password_rejected "secret" "alpha" "beta" [0] [1] (by decide)

/-- C4: `Storage.save(envelope)` always writes the envelope to the Local
Store (and does so regardless of the remote outcome, i.e. first); when the
push is attempted and succeeds the pending flag is cleared, on any push
failure the pending flag is set and the error is swallowed — `Storage.save`
is a total function on the state, so no remote failure ever propagates to
the caller. -/
theorem C4_save_local_first_pending_tracking (env : Envelope) (pushOk : Bool)
    (st : LocalStore) (remote : Option Envelope) :
    (Storage.save env pushOk st remote).1.vault = some env ∧
      (GitHub.isConfigured st.ghConfig = true → pushOk = true →
        (Storage.save env pushOk st remote).1.pending = false) ∧
      (GitHub.isConfigured st.ghConfig = true → pushOk = false →
        (Storage.save env pushOk st remote).1.pending = true) := by
  refine ⟨?_, ?_, ?_⟩
  · cases hcfg : GitHub.isConfigured st.ghConfig <;> cases pushOk <;>
      simp [Storage.save, Storage.saveLocal, Storage.clearPending,
        Storage.markPending, hcfg]
  · intro hcfg hok
    subst hok
    simp [Storage.save, Storage.saveLocal, Storage.clearPending, hcfg]
  · intro hcfg hok
    subst hok
    simp [Storage.save, Storage.saveLocal, Storage.markPending, hcfg]

/-- Witness for C4 at a concrete input: configured store, failing push —
the envelope is in the local store and the pending flag is set. -/
theorem C4_save_local_first_pending_tracking_witness :
    (Storage.save (Crypto.encrypt "v" "pw" [0] [1]) false
        ⟨none, false, some ⟨"o", "r", "t"⟩⟩ none).1.vault
        = some (Crypto.encrypt "v" "pw" [0] [1]) ∧
      (Storage.save (Crypto.encrypt "v" "pw" [0] [1]) false
        ⟨none, false, some ⟨"o", "r", "t"⟩⟩ none).1.pending = true :=
  ⟨(C4_save_local_first_pending_tracking (Crypto.encrypt "v" "pw" [0] [1])
      false ⟨none, false, some ⟨"o", "r", "t"⟩⟩ none).1,
    (C4_save_local_first_pending_tracking (Crypto.encrypt "v" "pw" [0] [1])
      false ⟨none, false, some ⟨"o", "r", "t"⟩⟩ none).2.2 (by decide) rfl⟩

/-- C5: `Storage.load()` attempts the remote pull first; whenever the pull
succeeds and returns an envelope, that envelope overwrites the Local
Store's copy and is the returned value; whenever the pull fails for any
reason, or returns absent (including when no remote is configured), `load`
returns the Local Store's envelope and leaves the store unchanged. -/
theorem C5_load_remote_wins_else_local (pullOk : Bool)
    (st : LocalStore) (remote : Option Envelope) :
    (GitHub.isConfigured st.ghConfig = true → pullOk = true →
      ∀ r, remote = some r →
        (Storage.load pullOk st remote).1 = some r ∧
          (Storage.load pullOk st remote).2.vault = some r) ∧
      (pullOk = false ∨ remote = none ∨ GitHub.isConfigured st.ghConfig = false →
        (Storage.load pullOk st remote).1 = st.vault ∧
          (Storage.load pullOk st remote).2 = st) := by
  constructor
  · intro hcfg hok r hr
    subst hr hok
    simp [Storage.load, hcfg, Storage.saveLocal, Storage.loadLocal]
  · intro h
    rcases h with h | h | h
    · subst h
      cases hcfg : GitHub.isConfigured st.ghConfig <;>
        simp [Storage.load, hcfg, Storage.loadLocal]
    · subst h
      cases hcfg : GitHub.isConfigured st.ghConfig <;> cases pullOk <;>
        simp [Storage.load, hcfg, Storage.loadLocal]
    · simp [Storage.load, h, Storage.loadLocal]

/-- Witness for C5 at a concrete input: configured store, successful pull
returning a remote envelope — it overwrites the local copy and is
returned. -/
theorem C5_load_remote_wins_else_local_witness :
    (Storage.load true ⟨none, false, some ⟨"o", "r", "t"⟩⟩
        (some (Crypto.encrypt "v" "pw" [0] [1]))).1
        = some (Crypto.encrypt "v" "pw" [0] [1]) ∧
      (Storage.load true ⟨none, false, some ⟨"o", "r", "t"⟩⟩
        (some (Crypto.encrypt "v" "pw" [0] [1]))).2.vault
        = some (Crypto.encrypt "v" "pw" [0] [1]) :=
  (C5_load_remote_wins_else_local true ⟨none, false, some ⟨"o", "r", "t"⟩⟩
      (some (Crypto.encrypt "v" "pw" [0] [1]))).1 (by decide) rfl
    (Crypto.encrypt "v" "pw" [0] [1]) rfl

/-- C9: when no remote store is configured, `Storage.save` still clears the
pending flag after the local write even though no push was attempted: a
pending flag set by an earlier failed push is cleared while the remote file
never receives the data (the remote is unchanged by the save). -/
theorem C9_unconfigured_save_clears_pending (env : Envelope) (pushOk : Bool)
    (st : LocalStore) (remote : Option Envelope)
    (hcfg : GitHub.isConfigured st.ghConfig = false)
    (_hpending : st.pending = true) :
    (Storage.save env pushOk st remote).1.pending = false ∧
      (Storage.save env pushOk st remote).1.vault = some env ∧
      (Storage.save env pushOk st remote).2 = remote := by
  refine ⟨?_, ?_, ?_⟩ <;>
    simp [Storage.save, Storage.saveLocal, Storage.clearPending, hcfg]

/-- Witness for C9 at a concrete input: unconfigured store with the pending
flag set by an earlier failed push. -/
theorem C9_unconfigured_save_clears_pending_witness :
    (Storage.save (Crypto.encrypt "v" "pw" [0] [1]) true
        ⟨none, true, none⟩ none).1.pending = false ∧
      (Storage.save (Crypto.encrypt "v" "pw" [0] [1]) true
        ⟨none, true, none⟩ none).1.vault
        = some (Crypto.encrypt "v" "pw" [0] [1]) ∧
      (Storage.save (Crypto.encrypt "v" "pw" [0] [1]) true
        ⟨none, true, none⟩ none).2 = none :=
  C9_unconfigured_save_clears_pending (Crypto.encrypt "v" "pw" [0] [1]) true
    ⟨none, true, none⟩ none (by decide) (by decide)

/-- Erasing the same index from two equally long lists leaves equally long
lists (`splice(i, 1)` applied in lock-step). -/
theorem length_eraseIdx_congr {α β : Type} (l1 : List α) (l2 : List β)
    (i : Nat) (h : l1.length = l2.length) :
    (l1.eraseIdx i).length = (l2.eraseIdx i).length := by
  rw [List.length_eraseIdx, List.length_eraseIdx, h]

/-- Unpack the Bool row-length invariant at a member row. -/
theorem Table.rowLenInv_mem {tbl : Table} (h : tbl.rowLenInv = true)
    {r : List String} (hr : r ∈ tbl.rows) : r.length = tbl.columns.length := by
  simp only [Table.rowLenInv, List.all_eq_true] at h
  simpa using h r hr

/-- Build the Bool row-length invariant from the rows' lengths. -/
theorem Table.rowLenInv_of_forall {tbl : Table}
    (h : ∀ r ∈ tbl.rows, r.length = tbl.columns.length) :
    tbl.rowLenInv = true := by
  simp only [Table.rowLenInv, List.all_eq_true]
  intro r hr
  simpa using h r hr

/-- Unpack the vault-wide invariant at a member table. -/
theorem Vault.rowLenInv_mem_table {v : Vault} (h : v.rowLenInv = true)
    {p : String × Table} (hp : p ∈ v.tables) : p.2.rowLenInv = true := by
  simp only [Vault.rowLenInv, List.all_eq_true] at h
  exact h p hp

/-- A successful association-list lookup is a membership. -/
theorem mem_of_lookup_eq_some {ts : List (String × Table)} {n : String}
    {t : Table} (h : ts.lookup n = some t) : (n, t) ∈ ts := by
  rcases List.lookup_eq_some_iff.mp h with ⟨l₁, l₂, rfl, -⟩
  simp

/-- Members of `setTable ts n t` are either the new entry or old entries. -/
theorem mem_setTable {ts : List (String × Table)} {n : String} {t : Table}
    {p : String × Table} (hp : p ∈ setTable ts n t) :
    p = (n, t) ∨ p ∈ ts := by
  unfold setTable at hp
  split at hp
  · rcases List.mem_map.mp hp with ⟨q, hq, hfq⟩
    by_cases hqn : q.1 = n
    · rw [if_pos hqn] at hfq
      exact Or.inl hfq.symm
    · rw [if_neg hqn] at hfq
      exact Or.inr (hfq ▸ hq)
  · rcases List.mem_append.mp hp with hq | hq
    · exact Or.inr hq
    · exact Or.inl (by simpa using hq)

/-- `setTable` preserves the vault-wide invariant when the new table
satisfies the table invariant. -/
theorem Vault.rowLenInv_setTable {v : Vault} {n : String} {t : Table}
    (h : v.rowLenInv = true) (ht : t.rowLenInv = true) :
    Vault.rowLenInv { v with tables := setTable v.tables n t } = true := by
  simp only [Vault.rowLenInv, List.all_eq_true]
  intro p hp
  rcases mem_setTable hp with rfl | hp'
  · exact ht
  · exact Vault.rowLenInv_mem_table h hp'

/-- `addColumn` preserves the row-length invariant: the new column name is
pushed onto `columns` and `''` is pushed onto every row in lock-step. -/
theorem Vault.rowLenInv_addColumn (v : Vault) (tn cn : String)
    (h : v.rowLenInv = true) : (App.addColumn v tn cn).rowLenInv = true := by
  unfold App.addColumn
  cases hl : v.tables.lookup tn with
  | none => exact h
  | some tbl =>
    dsimp only
    apply Vault.rowLenInv_setTable h
    apply Table.rowLenInv_of_forall
    intro r hr
    rcases List.mem_map.mp hr with ⟨s, hs, rfl⟩
    have hlen := Table.rowLenInv_mem
      (Vault.rowLenInv_mem_table h (mem_of_lookup_eq_some hl)) hs
    simp [hlen]

/-- `deleteColumn` preserves the row-length invariant: `splice(colIndex, 1)`
is applied to `columns` and to every row in lock-step. -/
theorem Vault.rowLenInv_deleteColumn (v : Vault) (tn : String) (ci : Nat)
    (h : v.rowLenInv = true) : (App.deleteColumn v tn ci).rowLenInv = true := by
  unfold App.deleteColumn
  cases hl : v.tables.lookup tn with
  | none => exact h
  | some tbl =>
    dsimp only
    by_cases hone : tbl.columns.length ≤ 1
    · rw [if_pos hone]
      exact h
    · rw [if_neg hone]
      apply Vault.rowLenInv_setTable h
      apply Table.rowLenInv_of_forall
      intro r hr
      rcases List.mem_map.mp hr with ⟨s, hs, rfl⟩
      exact length_eraseIdx_congr s tbl.columns ci
        (Table.rowLenInv_mem (Vault.rowLenInv_mem_table h (mem_of_lookup_eq_some hl)) hs)

/-- One column operation preserves the vault-wide row-length invariant. -/
theorem Vault.rowLenInv_applyColOp (v : Vault) (op : ColOp)
    (h : v.rowLenInv = true) : (applyColOp v op).rowLenInv = true := by
  cases op with
  | add tn cn => exact Vault.rowLenInv_addColumn v tn cn h
  | del tn ci => exact Vault.rowLenInv_deleteColumn v tn ci h

/-- C3, counterexample: the claim quantifies over all vault-mutating
operations including CSV import, but `importCSV` installs the parsed CSV
rows without reconciling their lengths with `columns.length`: importing
the CSV text `"a,b\nc"` into the empty vault succeeds and produces a table
with 2 columns whose only row has length 1, so the row-length invariant
does not hold "at all times". -/
theorem C3_counterexample_importCSV_breaks_invariant :
    Vault.rowLenInv emptyVault = true ∧
      (App.importCSV emptyVault "T" "a,b\nc").2 = true ∧
      Vault.rowLenInv (App.importCSV emptyVault "T" "a,b\nc").1 = false := by
  decide

/-- C3, amended: for every table in the vault, after any sequence of
add-column and delete-column operations applied to a vault satisfying the
row-length invariant, every row's length equals the table's current column
count `columns.length` (CSV import is excluded: it installs rows with the
lengths parsed from the CSV text). -/
theorem C3_amended_column_ops_preserve_row_invariant (v : Vault)
    (ops : List ColOp) (h : v.rowLenInv = true) :
    (applyColOps v ops).rowLenInv = true := by
  induction ops generalizing v with
  | nil => exact h
  | cons op ops ih => exact ih _ (Vault.rowLenInv_applyColOp v op h)

/-- Witness for the amended C3 at a concrete input: a one-column table with
two rows, an add-column followed by a delete-column. -/
theorem C3_amended_column_ops_preserve_row_invariant_witness :
    (applyColOps ⟨1, [("T", ⟨["Column 1"], [[""], [""]]⟩)]⟩
      [ColOp.add "T" "Extra", ColOp.del "T" 0]).rowLenInv = true :=
  C3_amended_column_ops_preserve_row_invariant
    ⟨1, [("T", ⟨["Column 1"], [[""], [""]]⟩)]⟩
    [ColOp.add "T" "Extra", ColOp.del "T" 0] (by decide)

/-- C10: `updateCell(tableName, rowIndex, colIndex, value)` checks only that
the table exists (a missing table returns with no change and no fault) and
performs no bounds check on the indices: (i) an out-of-range `rowIndex`
(`rows[rowIndex]` undefined, i.e. `rows.length ≤ rowIndex`) makes the row
lookup fault; (ii) under the precondition `rowIndex < rows.length` and
`colIndex < row.length` the cell is updated safely — the row keeps its
length and the row-length invariant is preserved; (iii) an out-of-range
`colIndex` on an existing row of invariant length extends that row beyond
`columns.length`. -/
theorem C10_updateCell_unchecked_indices (v : Vault) (tableName : String)
    (tbl : Table) (ri ci : Nat) (val : String) (row : List String) :
    (v.tables.lookup tableName = none →
      App.updateCell v tableName ri ci val = some v) ∧
    (v.tables.lookup tableName = some tbl → tbl.rows[ri]? = none →
      App.updateCell v tableName ri ci val = none) ∧
    (tbl.rows[ri]? = none ↔ tbl.rows.length ≤ ri) ∧
    (tbl.rows[ri]? = some row → ci < row.length →
      updateCellT tbl ri ci val
          = some { tbl with rows := tbl.rows.set ri (row.set ci val) } ∧
        (row.set ci val).length = row.length ∧
        (tbl.rowLenInv = true →
          Table.rowLenInv
            { tbl with rows := tbl.rows.set ri (row.set ci val) } = true)) ∧
    (tbl.rows[ri]? = some row → row.length = tbl.columns.length →
      tbl.columns.length ≤ ci →
      ∃ row', updateCellT tbl ri ci val
          = some { tbl with rows := tbl.rows.set ri row' } ∧
        tbl.columns.length < row'.length) := by
  refine ⟨?_, ?_, ?_, ?_, ?_⟩
  · intro h
    simp [App.updateCell, h]
  · intro h hrow
    simp [App.updateCell, updateCellT, h, hrow]
  · exact List.getElem?_eq_none_iff
  · intro hrow hci
    refine ⟨by simp [updateCellT, hrow, jsArraySet, hci], by simp, ?_⟩
    intro hinv
    apply Table.rowLenInv_of_forall
    intro r hr
    rcases List.mem_or_eq_of_mem_set hr with h | h
    · exact Table.rowLenInv_mem hinv h
    · subst h
      rw [List.length_set]
      exact Table.rowLenInv_mem hinv (List.getElem?_mem hrow)
  · intro hrow hlen hci
    have hnot : ¬ ci < row.length := by omega
    refine ⟨row ++ List.replicate (ci - row.length) "" ++ [val], ?_, ?_⟩
    · simp [updateCellT, hrow, jsArraySet, hnot]
    · simp only [List.length_append, List.length_replicate, List.length_cons,
        List.length_nil]
      omega

/-- Witness for C10 at concrete inputs: on `sampleTable` (1 column, 1 row)
`updateCell` with `rowIndex = 5` faults, while `colIndex = 2` on row 0
extends the row beyond the column count. -/
theorem C10_updateCell_unchecked_indices_witness :
    App.updateCell sampleVault "T" 5 0 "v" = none ∧
      (∃ row', updateCellT sampleTable 0 2 "v"
          = some { sampleTable with rows := sampleTable.rows.set 0 row' } ∧
        sampleTable.columns.length < row'.length) :=
  ⟨(C10_updateCell_unchecked_indices sampleVault "T" sampleTable 5 0 "v"
      ["x"]).2.1 (by decide) (by decide),
    (C10_updateCell_unchecked_indices sampleVault "T" sampleTable 0 2 "v"
      ["x"]).2.2.2.2 (by decide) (by decide) (by decide)⟩

/-- `Storage.save` always leaves the saved envelope in the local store,
whatever the remote outcome. -/
theorem Storage.save_vault_eq (env : Envelope) (pushOk : Bool)
    (st : LocalStore) (remote : Option Envelope) :
    (Storage.save env pushOk st remote).1.vault = some env := by
  cases hcfg : GitHub.isConfigured st.ghConfig <;> cases pushOk <;>
    simp [Storage.save, Storage.saveLocal, Storage.clearPending,
      Storage.markPending, hcfg]

/-- Verification of a freshly encrypted envelope is exactly a password
equality check in the ideal cipher model. -/
theorem Crypto.verify_encrypt (json pw pw2 : String) (salt iv : List Nat) :
    Crypto.verify (Crypto.encrypt json pw salt iv) pw2 = decide (pw2 = pw) := by
  by_cases h : pw2 = pw
  · subst h
    simp [Crypto.verify, Crypto.decrypt, Crypto.encrypt, aesGcmDecrypt,
      aesGcmEncrypt, deriveKey]
  · have h' : pw ≠ pw2 := fun hc => h hc.symm
    simp [Crypto.verify, Crypto.decrypt, Crypto.encrypt, aesGcmDecrypt,
      aesGcmEncrypt, deriveKey, AESKey.mk.injEq, h, h']

/-- C6: when an envelope is present and `unlock` is called with a password
that fails verification against it, `unlock` returns the distinguishable
failure result `{ok: false}` and the session state is unchanged: it remains
Locked, the vault stays null, and the password is not stored in memory. -/
theorem C6_wrong_password_unlock_keeps_state (password : String)
    (pullOk : Bool) (salt iv : List Nat) (pushOk : Bool) (app : AppState)
    (st : LocalStore) (remote : Option Envelope) (payload : Envelope)
    (hload : (Storage.load pullOk st remote).1 = some payload)
    (hverify : Crypto.verify payload password = false)
    (hlocked : app.locked = true) (hvault : app.vault = none)
    (hpw : app.password = none) :
    (App.unlock password pullOk salt iv pushOk app st remote).1
        = UnlockResult.fail ∧
      (App.unlock password pullOk salt iv pushOk app st remote).2.1 = app ∧
      (App.unlock password pullOk salt iv pushOk app st remote).2.1.locked
        = true ∧
      (App.unlock password pullOk salt iv pushOk app st remote).2.1.vault
        = none ∧
      (App.unlock password pullOk salt iv pushOk app st remote).2.1.password
        = none := by
  have hdec : Crypto.decrypt payload password = none := by
    cases hd : Crypto.decrypt payload password with
    | none => rfl
    | some j =>
      rw [Crypto.verify, hd] at hverify
      simp at hverify
  refine ⟨?_, ?_, ?_, ?_, ?_⟩ <;>
    simp [App.unlock, hload, hdec, hlocked, hvault, hpw]

/-- Witness for C6 at a concrete input: an envelope under "hunter2duck"
unlocked with "wrongpass". -/
theorem C6_wrong_password_unlock_keeps_state_witness :
    (App.unlock "wrongpass" true [2] [3] true initialAppState
        ⟨some sampleEnvelope, false, none⟩ none).1 = UnlockResult.fail ∧
      (App.unlock "wrongpass" true [2] [3] true initialAppState
        ⟨some sampleEnvelope, false, none⟩ none).2.1 = initialAppState :=
  ⟨(C6_wrong_password_unlock_keeps_state "wrongpass" true [2] [3] true
      initialAppState ⟨some sampleEnvelope, false, none⟩ none sampleEnvelope
      (by decide) (by decide) rfl rfl rfl).1,
    (C6_wrong_password_unlock_keeps_state "wrongpass" true [2] [3] true
      initialAppState ⟨some sampleEnvelope, false, none⟩ none sampleEnvelope
      (by decide) (by decide) rfl rfl rfl).2.1⟩

/-- C7, counterexample: calling the change-password handler with
`old = new = "password1"` completes (result `changed`), yet the persisted
envelope still verifies under the old password — `verify(currentEnvelope,
old)` is `true`, not `false` as the claim states for every `(old, new)`. -/
theorem C7_counterexample_change_to_same_password :
    (UI.changePassword "password1" "password1" "password1" [2] [3] true
        initialAppState
        ⟨some (Crypto.encrypt (jsonStringifyVault emptyVault) "password1"
          [0] [1]), false, none⟩ none).1 = PwChangeResult.changed ∧
      (UI.changePassword "password1" "password1" "password1" [2] [3] true
        initialAppState
        ⟨some (Crypto.encrypt (jsonStringifyVault emptyVault) "password1"
          [0] [1]), false, none⟩ none).2.2.1.vault
        = some (Crypto.encrypt (jsonStringifyVault emptyVault) "password1"
          [2] [3]) ∧
      Crypto.verify (Crypto.encrypt (jsonStringifyVault emptyVault)
        "password1" [2] [3]) "password1" = true := by
  decide

/-- C7, amended: provided `old ≠ new`, after a completing
`changePassword(old, new)` — which re-verifies `old` against the currently
persisted envelope (`Storage.loadLocal`), decrypts under `old`, and
re-encrypts the same plaintext under `new` with a freshly generated salt
and iv — the persisted envelope satisfies `verify(currentEnvelope, old) =
false` and `verify(currentEnvelope, new) = true`, and the session is
locked (password and vault wiped). -/
theorem C7_amended_changePassword_invalidates_old (oldPw newPw newPw2 : String)
    (salt iv : List Nat) (pushOk : Bool) (app : AppState) (st : LocalStore)
    (remote : Option Envelope) (payload : Envelope)
    (hlocal : Storage.loadLocal st = some payload)
    (hmatch : newPw2 = newPw) (hlen : 8 ≤ newPw.length)
    (hverify : Crypto.verify payload oldPw = true)
    (hne : oldPw ≠ newPw) :
    (UI.changePassword oldPw newPw newPw2 salt iv pushOk app st remote).1
        = PwChangeResult.changed ∧
      (∃ env, (UI.changePassword oldPw newPw newPw2 salt iv pushOk app st
            remote).2.2.1.vault = some env ∧
        Crypto.verify env oldPw = false ∧
        Crypto.verify env newPw = true) ∧
      (UI.changePassword oldPw newPw newPw2 salt iv pushOk app st
        remote).2.1.locked = true ∧
      (UI.changePassword oldPw newPw newPw2 salt iv pushOk app st
        remote).2.1.password = none ∧
      (UI.changePassword oldPw newPw newPw2 salt iv pushOk app st
        remote).2.1.vault = none := by
  subst hmatch
  rw [Crypto.verify] at hverify
  obtain ⟨json, hjson⟩ := Option.isSome_iff_exists.mp hverify
  have hlen' : ¬ newPw2.length < 8 := by omega
  refine ⟨?_, ⟨Crypto.encrypt json newPw2 salt iv, ?_, ?_, ?_⟩, ?_, ?_, ?_⟩
  · simp [UI.changePassword, hlen', hlocal, hjson]
  · simp [UI.changePassword, hlen', hlocal, hjson, Storage.save_vault_eq]
  · simp [Crypto.verify_encrypt, hne]
  · simp [Crypto.verify_encrypt]
  · simp [UI.changePassword, hlen', hlocal, hjson, App.lock]
  · simp [UI.changePassword, hlen', hlocal, hjson, App.lock]
  · simp [UI.changePassword, hlen', hlocal, hjson, App.lock]

/-- Witness for the amended C7 at concrete inputs: envelope under
"hunter2duck", new password "newpassword9". -/
theorem C7_amended_changePassword_invalidates_old_witness :
    (UI.changePassword "hunter2duck" "newpassword9" "newpassword9" [2] [3]
        true initialAppState ⟨some sampleEnvelope, false, none⟩ none).1
      = PwChangeResult.changed ∧
      (∃ env, (UI.changePassword "hunter2duck" "newpassword9" "newpassword9"
            [2] [3] true initialAppState ⟨some sampleEnvelope, false, none⟩
            none).2.2.1.vault = some env ∧
        Crypto.verify env "hunter2duck" = false ∧
        Crypto.verify env "newpassword9" = true) ∧
      (UI.changePassword "hunter2duck" "newpassword9" "newpassword9" [2] [3]
        true initialAppState ⟨some sampleEnvelope, false, none⟩
        none).2.1.locked = true :=
  ⟨(C7_amended_changePassword_invalidates_old "hunter2duck" "newpassword9"
      "newpassword9" [2] [3] true initialAppState
      ⟨some sampleEnvelope, false, none⟩ none sampleEnvelope rfl rfl
      (by decide) (by decide) (by decide)).1,
    (C7_amended_changePassword_invalidates_old "hunter2duck" "newpassword9"
      "newpassword9" [2] [3] true initialAppState
      ⟨some sampleEnvelope, false, none⟩ none sampleEnvelope rfl rfl
      (by decide) (by decide) (by decide)).2.1,
    (C7_amended_changePassword_invalidates_old "hunter2duck" "newpassword9"
      "newpassword9" [2] [3] true initialAppState
      ⟨some sampleEnvelope, false, none⟩ none sampleEnvelope rfl rfl
      (by decide) (by decide) (by decide)).2.2.1⟩

/-- C8, counterexample: the first-run path is not taken "exactly when no
envelope exists anywhere".  With GitHub configured, a remote envelope
present but the pull failing (offline) and the local store empty,
`unlock` still takes the first-run path; and when truly no envelope exists
anywhere, `unlock("")` takes the first-run path but persists nothing
(`persistVault` skips the falsy empty-string password). -/
theorem C8_counterexample_first_run_not_iff_no_envelope :
    (App.unlock "pw123456" false [2] [3] true initialAppState
        ⟨none, false, some ⟨"o", "r", "t"⟩⟩ (some sampleEnvelope)).1
      = UnlockResult.okFirstRun ∧
      (some sampleEnvelope ≠ (none : Option Envelope)) ∧
      (App.unlock "" true [2] [3] true initialAppState ⟨none, false, none⟩
        none).1 = UnlockResult.okFirstRun ∧
      (App.unlock "" true [2] [3] true initialAppState ⟨none, false, none⟩
        none).2.2.1.vault = none := by
  decide

/-- C8, amended: `unlock(password)` takes the first-run path exactly when
`Storage.load()` returns absent — that is, when the local store holds no
envelope and the remote pull yields nothing (unconfigured, remote absent,
or pull failure; an envelope that exists remotely but is unreachable still
triggers first-run).  On that path the session becomes Unlocked with an
empty vault and the given password adopted as master password, the result
is `{ok: true, firstRun: true}`, and — provided the password is non-empty
(`persistVault` skips falsy passwords) — the vault is persisted
immediately: the local store receives the envelope encrypting the
serialized empty vault under the given password. -/
theorem C8_amended_first_run_iff_load_absent (password : String)
    (pullOk : Bool) (salt iv : List Nat) (pushOk : Bool) (app : AppState)
    (st : LocalStore) (remote : Option Envelope) :
    ((App.unlock password pullOk salt iv pushOk app st remote).1
        = UnlockResult.okFirstRun
      ↔ (Storage.load pullOk st remote).1 = none) ∧
      ((Storage.load pullOk st remote).1 = none →
        (App.unlock password pullOk salt iv pushOk app st remote).2.1.locked
            = false ∧
          (App.unlock password pullOk salt iv pushOk app st remote).2.1.vault
            = some emptyVault ∧
          (App.unlock password pullOk salt iv pushOk app st
            remote).2.1.password = some password ∧
          (password ≠ "" →
            (App.unlock password pullOk salt iv pushOk app st
                remote).2.2.1.vault
              = some (Crypto.encrypt (jsonStringifyVault emptyVault)
                  password salt iv))) := by
  cases hl : (Storage.load pullOk st remote).1 with
  | none =>
    constructor
    · simp [App.unlock, hl]
    · intro _
      by_cases hpw : password = ""
      · subst hpw
        refine ⟨?_, ?_, ?_, ?_⟩ <;>
          simp [App.unlock, hl, App.persistVault]
      · refine ⟨?_, ?_, ?_, ?_⟩ <;>
          simp [App.unlock, hl, App.persistVault, hpw, Storage.save_vault_eq]
  | some payload =>
    constructor
    · constructor
      · intro hres
        exfalso
        cases hd : Crypto.decrypt payload password with
        | none => simp [App.unlock, hl, hd] at hres
        | some json =>
          cases hp : jsonParseVault json with
          | none => simp [App.unlock, hl, hd, hp] at hres
          | some v => simp [App.unlock, hl, hd, hp] at hres
      · intro hcontra
        simp [hl] at hcontra
    · intro hcontra
      simp [hl] at hcontra

/-- Witness for the amended C8 at a concrete input: empty local store, no
remote, password "hunter2duck". -/
theorem C8_amended_first_run_iff_load_absent_witness :
    (App.unlock "hunter2duck" true [2] [3] true initialAppState
        ⟨none, false, none⟩ none).1 = UnlockResult.okFirstRun ∧
      (App.unlock "hunter2duck" true [2] [3] true initialAppState
        ⟨none, false, none⟩ none).2.2.1.vault
        = some (Crypto.encrypt (jsonStringifyVault emptyVault) "hunter2duck"
            [2] [3]) :=
  ⟨((C8_amended_first_run_iff_load_absent "hunter2duck" true [2] [3] true
      initialAppState ⟨none, false, none⟩ none).1).mpr (by decide),
    ((C8_amended_first_run_iff_load_absent "hunter2duck" true [2] [3] true
      initialAppState ⟨none, false, none⟩ none).2 (by decide)).2.2.2
      (by decide)⟩
